import Mathlib

/-
Verification of the LLaMACpp translator adapter
(book_maker/translator/llamacpp_translator.py).

The adapter composes an OpenAI-style chat request from a system message, an
optional compressed context exchange, and the live user prompt; it posts the
request, extracts choices[0].message.content, normalizes newline runs, and
optionally records the (source, translation) pair in a bounded FIFO context
window.

Embedding notes:
* Strings are Lean String values; the Python lists become Lean List.
* The prompt template is modelled in the parsed form that Python
  str.format gives it: a sequence of literal runs and replacement fields
  (the templates used contain only the fields named text and language and
  no brace escapes, so this is exact).
* The HTTP exchange is modelled by a Response value passed to translate:
  every exception arising inside the try block (transport failure, non-2xx
  status via raise_for_status, JSON decode failure, and a missing
  choices[0].message.content path, which raises KeyError/IndexError) is one
  of the four failure constructors; a parseable response carrying the
  content value is the parsed constructor. The content value is either a
  JSON string or some non-string JSON value (Content.nonStr, e.g. null).
* An uncaught Python exception is an Except.error result; the normal path
  returns the post-call instance state together with the returned string.
  The console print calls are diagnostics outside the contract and are not
  modelled.
* The sampling temperature, the api key and the HTTP url are configuration
  forwarded verbatim; the url is kept (its default matters to the spec),
  temperature and key do not influence any claim and floating point is not
  modelled.
-/

namespace BookMaker

/-- One chat message of the request body: a role string and a content
string, matching the JSON objects built in the source. -/
structure Message where
  role : String
  content : String
deriving DecidableEq, Repr

/-- One piece of a parsed format template: a literal run or one of the two
replacement fields that the templates of this adapter use. -/
inductive TItem where
  | lit (s : String)
  | fieldText
  | fieldLanguage
deriving DecidableEq, Repr

/-- Render a parsed template, substituting the live values for the two
fields: the model of Python str.format with keywords text and language.
Substituted values are emitted verbatim (format does not rescan them). -/
def renderTemplate (tmpl : List TItem) (text language : String) : String :=
  match tmpl with
  | [] => ""
  | TItem.lit s :: rest => s ++ renderTemplate rest text language
  | TItem.fieldText :: rest => text ++ renderTemplate rest text language
  | TItem.fieldLanguage :: rest => language ++ renderTemplate rest text language

/-- The default prompt template of "__init__", parsed: the two adjacent
Python string literals concatenate to
"Help me translate the text within triple backticks into \x7blanguage\x7d.\n
Provide only the translated result.\n```\x7btext\x7d```". -/
def defaultPromptTemplate : List TItem :=
  [TItem.lit "Help me translate the text within triple backticks into ",
   TItem.fieldLanguage,
   TItem.lit ".\nProvide only the translated result.\n```",
   TItem.fieldText,
   TItem.lit "```"]

/-- The content value found at choices[0].message.content of a parseable
response: a JSON string, or some non-string JSON value such as null. -/
inductive Content where
  | str (s : String)
  | nonStr
deriving DecidableEq, Repr

/-- Outcome of the HTTP exchange inside the try block of translate. The
four failure constructors are the exceptions the except clause catches:
transport-level failure from requests.post, non-2xx status from
raise_for_status, a JSON decode failure from r.json, and a missing
choices[0].message.content path (KeyError or IndexError). parsed means the
path existed and held the given content value. -/
inductive Response where
  | transportError
  | httpStatusError
  | jsonDecodeError
  | missingContentPath
  | parsed (c : Content)
deriving DecidableEq, Repr

/-- Whether the response takes the except branch of translate. -/
def Response.isFailure : Response → Bool
  | Response.parsed _ => false
  | _ => true

/-- A Python exception class escaping translate uncaught. The only one
possible is the TypeError that re.sub raises on a non-string argument. -/
inductive PyError where
  | typeError
deriving DecidableEq, Repr

/-- The state of an LLaMACpp translator instance: the configuration set by
"__init__" and the mutable context window (context_list and
context_translated_list). The base-class fields (the stored key) are out of
scope per the spec; context_paragraph_limit is an Int because Python does
not restrict it to positive values. -/
structure LLaMACpp where
  api_url : String
  language : String
  prompt_template : List TItem
  prompt_sys_msg : String
  context_flag : Bool
  context_list : List String
  context_translated_list : List String
  context_paragraph_limit : Int
deriving DecidableEq, Repr

/-- "__init__": optional arguments default as in the source; both history
lists start empty. -/
def LLaMACpp.init (language : String) (api_base : Option String)
    (prompt_template : Option (List TItem)) (prompt_sys_msg : Option String)
    (context_flag : Bool) (context_paragraph_limit : Int) : LLaMACpp :=
  { api_url := api_base.getD "http://127.0.0.1:8080/v1/chat/completions"
    language := language
    prompt_template := prompt_template.getD defaultPromptTemplate
    prompt_sys_msg := prompt_sys_msg.getD "You are a helpful assistant."
    context_flag := context_flag
    context_list := []
    context_translated_list := []
    context_paragraph_limit := context_paragraph_limit }

/-- rotate_key: a no-op for this transport. -/
def LLaMACpp.rotate_key (s : LLaMACpp) : LLaMACpp := s

/-- create_messages: the previously built messages (context), then the live
user message rendered from the prompt template. A None argument and an
empty list behave alike in the source (the extend is skipped), so both are
the empty list here. -/
def LLaMACpp.create_messages (s : LLaMACpp) (text : String)
    (intermediate_messages : List Message) : List Message :=
  intermediate_messages ++
    [Message.mk "user" (renderTemplate s.prompt_template text s.language)]

/-- create_context_messages: empty when context is off or the window is
empty; otherwise one synthetic user message rendering the joined source
history through the prompt template, and one assistant message with the
joined translated history. -/
def LLaMACpp.create_context_messages (s : LLaMACpp) : List Message :=
  if !s.context_flag || s.context_list.isEmpty then []
  else
    [Message.mk "user"
       (renderTemplate s.prompt_template
         (String.intercalate "\n\n" s.context_list) s.language),
     Message.mk "assistant"
       (String.intercalate "\n\n" s.context_translated_list)]

/-- save_context: no-op when context is off; otherwise append the pair to
both history lists and, when the source list has grown past
context_paragraph_limit, pop the front of both. -/
def LLaMACpp.save_context (s : LLaMACpp) (src_text translated_text : String) :
    LLaMACpp :=
  if !s.context_flag then s
  else
    let cl := s.context_list ++ [src_text]
    let tl := s.context_translated_list ++ [translated_text]
    if s.context_paragraph_limit < (cl.length : Int) then
      { s with context_list := cl.tail, context_translated_list := tl.tail }
    else
      { s with context_list := cl, context_translated_list := tl }

/-- Emit a finished newline run: a run of three or more newlines becomes
exactly two, shorter runs are kept. -/
def emitRun (k : Nat) : List Char :=
  if 3 ≤ k then ['\n', '\n'] else List.replicate k '\n'

/-- Scanner behind the newline normalization: k counts the newlines of the
run currently open. -/
def collapseAux : Nat → List Char → List Char
  | k, [] => emitRun k
  | k, c :: cs =>
    if c = '\n' then collapseAux (k + 1) cs
    else emitRun k ++ (c :: collapseAux 0 cs)

/-- The cleanup step of translate: re.sub("\n\x7b3,\x7d", "\n\n", t),
collapsing every maximal run of three or more newlines to exactly two. -/
def normalizeNewlines (t : String) : String :=
  String.mk (collapseAux 0 t.data)

/-- The messages field of the posted JSON payload: the system message
first, then the context block, then the live user message. -/
def LLaMACpp.requestMessages (s : LLaMACpp) (text : String) : List Message :=
  Message.mk "system" s.prompt_sys_msg ::
    s.create_messages text s.create_context_messages

/-- translate, as a function of the instance state, the input text, and
the outcome of the HTTP exchange. Failure outcomes are caught and yield the
empty string with the state untouched; a parsed string content is
normalized, saved to the context window when context_flag is set, and
returned; a parsed non-string content reaches re.sub outside the try block
and the TypeError escapes. -/
def LLaMACpp.translate (s : LLaMACpp) (text : String) (resp : Response) :
    Except PyError (LLaMACpp × String) :=
  let s0 := s.rotate_key
  let _messages := s0.requestMessages text
  match resp with
  | Response.parsed (Content.str c) =>
    let t := normalizeNewlines c
    let s1 := if s0.context_flag then s0.save_context text t else s0
    Except.ok (s1, t)
  | Response.parsed Content.nonStr => Except.error PyError.typeError
  | _ => Except.ok (s0, "")

/-- The instance state after a translate call returns or raises: on an
uncaught exception the instance is left as it was (nothing mutated before
the raise). -/
def LLaMACpp.stateAfter (s : LLaMACpp) (text : String) (resp : Response) :
    LLaMACpp :=
  match s.translate text resp with
  | Except.ok (s1, _) => s1
  | Except.error _ => s

/-- One successful translate call: the server replies with string content
p.2 to input text p.1; the call cannot raise, so the state step is total. -/
def translateStep (s : LLaMACpp) (p : String × String) : LLaMACpp :=
  match s.translate p.1 (Response.parsed (Content.str p.2)) with
  | Except.ok (s1, _) => s1
  | Except.error _ => s

/-- A sequence of successful translate calls, oldest first. -/
def runCalls (s : LLaMACpp) (ps : List (String × String)) : LLaMACpp :=
  ps.foldl translateStep s

/-- Build a character list from chunks: each chunk is a newline-free block
followed by a newline run of the given length. Used to state the newline
normalization contract over maximal runs. -/
def assembleRuns (chunks : List (List Char × Nat)) : List Char :=
  chunks.foldr (fun p acc => p.1 ++ List.replicate p.2 '\n' ++ acc) []

/-- The context-window invariant of the spec: both history lists have the
same length, at most context_paragraph_limit. -/
def historyInvariant (s : LLaMACpp) : Prop :=
  s.context_list.length = s.context_translated_list.length ∧
    (s.context_list.length : Int) ≤ s.context_paragraph_limit

instance (s : LLaMACpp) : Decidable (historyInvariant s) := by
  unfold historyInvariant
  infer_instance

/-- A concrete instance used by witnesses: context on, limit 2. -/
def testState : LLaMACpp :=
  LLaMACpp.init "French" none none none true 2

/-- A concrete instance with context off, used by witnesses. -/
def testStateOff : LLaMACpp :=
  LLaMACpp.init "French" none none none false 5

/-- A concrete instance with context on and a zero paragraph limit. -/
def testStateZero : LLaMACpp :=
  LLaMACpp.init "French" none none none true 0

/- ------------------------------------------------------------------ -/
/- Helper lemmas shared by the claim theorems. -/
/- ------------------------------------------------------------------ -/

/-- save_context with context on: the branch structure made explicit. -/
theorem save_context_true (s : LLaMACpp) (a b : String)
    (hf : s.context_flag = true) :
    s.save_context a b =
      if s.context_paragraph_limit < ((s.context_list ++ [a]).length : Int) then
        { s with context_list := (s.context_list ++ [a]).tail,
                 context_translated_list :=
                   (s.context_translated_list ++ [b]).tail }
      else
        { s with context_list := s.context_list ++ [a],
                 context_translated_list :=
                   s.context_translated_list ++ [b] } := by
  simp [LLaMACpp.save_context, hf]

/-- save_context never changes the configuration fields. -/
theorem save_context_config (s : LLaMACpp) (a b : String) :
    (s.save_context a b).context_flag = s.context_flag ∧
      (s.save_context a b).context_paragraph_limit =
        s.context_paragraph_limit := by
  unfold LLaMACpp.save_context
  dsimp only
  split_ifs <;> simp

/-- translate on a parsed string reply: the value returned and the state
reached, as one equation. -/
theorem translate_parsed_str (s : LLaMACpp) (text r : String) :
    s.translate text (Response.parsed (Content.str r)) =
      Except.ok
        (if s.context_flag then
           s.save_context text (normalizeNewlines r)
         else s,
         normalizeNewlines r) := rfl

/-- One successful call steps the state through save_context exactly when
context is on. -/
theorem translateStep_eq (s : LLaMACpp) (p : String × String) :
    translateStep s p =
      if s.context_flag then s.save_context p.1 (normalizeNewlines p.2)
      else s := rfl

/- ------------------------------------------------------------------ -/
/- Claim theorems. -/
/- ------------------------------------------------------------------ -/

/-- Claim C1: with context enabled and a non-empty window, the message
sequence of the request body is exactly [system, contextUser,
contextAssistant, liveUser] (length 4); with context disabled or an empty
window it is exactly [system, liveUser] (length 2), system first and the
live user message last. -/
theorem requestMessages_structure (s : LLaMACpp) (text : String) :
    s.requestMessages text =
      if s.context_flag = true ∧ s.context_list ≠ [] then
        [Message.mk "system" s.prompt_sys_msg,
         Message.mk "user"
           (renderTemplate s.prompt_template
             (String.intercalate "\n\n" s.context_list) s.language),
         Message.mk "assistant"
           (String.intercalate "\n\n" s.context_translated_list),
         Message.mk "user" (renderTemplate s.prompt_template text s.language)]
      else
        [Message.mk "system" s.prompt_sys_msg,
         Message.mk "user"
           (renderTemplate s.prompt_template text s.language)] := by
  unfold LLaMACpp.requestMessages LLaMACpp.create_messages
    LLaMACpp.create_context_messages
  rcases hf : s.context_flag with _ | _ <;>
    rcases hl : s.context_list with _ | ⟨c, cs⟩ <;>
      simp [hf, hl]

/-- Claim C4: every failing HTTP exchange (transport failure, non-2xx
status, undecodable JSON, or a missing choices[0].message.content path) is
caught: translate returns the empty string, raises nothing, and leaves the
instance state, hence the context window length, unchanged. -/
theorem translate_failure_soft (s : LLaMACpp) (text : String)
    (resp : Response) (h : resp.isFailure = true) :
    s.translate text resp = Except.ok (s, "") := by
  cases resp with
  | parsed c => simp [Response.isFailure] at h
  | transportError => rfl
  | httpStatusError => rfl
  | jsonDecodeError => rfl
  | missingContentPath => rfl

/-- Witness for claim C4 at a transport failure against testState. -/
theorem translate_failure_soft_witness :
    Response.transportError.isFailure = true ∧
      testState.translate "Hello" Response.transportError =
        Except.ok (testState, "") :=
  ⟨rfl, translate_failure_soft testState "Hello" Response.transportError rfl⟩

/-- Claim C10: when the response parses and the content path exists but
holds a non-string value (such as JSON null), the TypeError raised by the
newline-normalization step, which sits outside the try block, escapes
translate instead of an empty string being returned. -/
theorem translate_nonstring_content_raises (s : LLaMACpp) (text : String) :
    s.translate text (Response.parsed Content.nonStr) =
      Except.error PyError.typeError := rfl

/-- Claim C7: rendering the default prompt template substitutes the
language at its placeholder position and embeds the text verbatim between
triple backticks. -/
theorem default_template_substitution (text language : String) :
    renderTemplate defaultPromptTemplate text language =
      "Help me translate the text within triple backticks into " ++
        language ++ ".\nProvide only the translated result.\n```" ++
        text ++ "```" := by
  simp [defaultPromptTemplate, renderTemplate, String.append_empty,
    String.append_assoc]

/-- Claim C9: with a non-positive contextLimit, each save_context call
under context mode appends one pair and immediately evicts the oldest, so
both history lists stay empty from an empty start and the context block of
subsequent calls is empty; the limit is never rejected at construction. -/
theorem save_context_nonpositive_limit (s : LLaMACpp) (a b : String)
    (hf : s.context_flag = true) (hlim : s.context_paragraph_limit ≤ 0) :
    (s.save_context a b).context_list = (s.context_list ++ [a]).tail ∧
      (s.save_context a b).context_translated_list =
        (s.context_translated_list ++ [b]).tail ∧
      (s.context_list = [] → s.context_translated_list = [] →
        (s.save_context a b).context_list = [] ∧
          (s.save_context a b).context_translated_list = [] ∧
          (s.save_context a b).create_context_messages = []) := by
  have hcond :
      s.context_paragraph_limit < ((s.context_list ++ [a]).length : Int) := by
    have h1 : 0 < (s.context_list ++ [a]).length := by simp
    omega
  rw [save_context_true s a b hf, if_pos hcond]
  refine ⟨rfl, rfl, ?_⟩
  intro h1 h2
  refine ⟨by simp [h1], by simp [h2], ?_⟩
  simp [LLaMACpp.create_context_messages, h1]

/-- Witness for claim C9 at testStateZero (limit 0). -/
theorem save_context_nonpositive_limit_witness :
    testStateZero.context_flag = true ∧
      testStateZero.context_paragraph_limit ≤ 0 ∧
      ((testStateZero.save_context "a" "b").context_list =
          (testStateZero.context_list ++ ["a"]).tail ∧
        (testStateZero.save_context "a" "b").context_translated_list =
          (testStateZero.context_translated_list ++ ["b"]).tail ∧
        (testStateZero.context_list = [] →
          testStateZero.context_translated_list = [] →
          (testStateZero.save_context "a" "b").context_list = [] ∧
            (testStateZero.save_context "a" "b").context_translated_list =
              [] ∧
            (testStateZero.save_context "a" "b").create_context_messages =
              [])) :=
  ⟨rfl, by decide,
    save_context_nonpositive_limit testStateZero "a" "b" rfl (by decide)⟩

/-- Claim C8: on a parseable string reply with context enabled, translate
appends the pair (input text, normalized reply) to the window under the
eviction rule, even when the normalized reply is empty (arbitrary r covers
the empty string); with context disabled, no response ever mutates the
window. -/
theorem translate_context_append (s : LLaMACpp) (text r : String) :
    (s.context_flag = true →
      (s.stateAfter text (Response.parsed (Content.str r))).context_list =
        (if s.context_paragraph_limit <
            ((s.context_list ++ [text]).length : Int) then
          (s.context_list ++ [text]).tail
         else s.context_list ++ [text]) ∧
      (s.stateAfter text
            (Response.parsed (Content.str r))).context_translated_list =
        (if s.context_paragraph_limit <
            ((s.context_list ++ [text]).length : Int) then
          (s.context_translated_list ++ [normalizeNewlines r]).tail
         else s.context_translated_list ++ [normalizeNewlines r])) ∧
    (s.context_flag = false → ∀ resp : Response,
      (s.stateAfter text resp).context_list = s.context_list ∧
        (s.stateAfter text resp).context_translated_list =
          s.context_translated_list) := by
  constructor
  · intro hf
    have hs : s.stateAfter text (Response.parsed (Content.str r)) =
        s.save_context text (normalizeNewlines r) := by
      simp [LLaMACpp.stateAfter, translate_parsed_str, hf]
    rw [hs, save_context_true s _ _ hf]
    split_ifs <;> exact ⟨rfl, rfl⟩
  · intro hf resp
    cases resp with
    | parsed c =>
      cases c with
      | str rr => simp [LLaMACpp.stateAfter, translate_parsed_str, hf]
      | nonStr => exact ⟨rfl, rfl⟩
    | transportError => exact ⟨rfl, rfl⟩
    | httpStatusError => exact ⟨rfl, rfl⟩
    | jsonDecodeError => exact ⟨rfl, rfl⟩
    | missingContentPath => exact ⟨rfl, rfl⟩

/-- Witness for claim C8: the enabled part at testState, the disabled part
at testStateOff with a transport failure. -/
theorem translate_context_append_witness :
    testState.context_flag = true ∧ testStateOff.context_flag = false ∧
      ((testState.stateAfter "a"
            (Response.parsed (Content.str "b"))).context_list =
          (if testState.context_paragraph_limit <
              ((testState.context_list ++ ["a"]).length : Int) then
            (testState.context_list ++ ["a"]).tail
           else testState.context_list ++ ["a"]) ∧
        (testState.stateAfter "a"
              (Response.parsed (Content.str "b"))).context_translated_list =
          (if testState.context_paragraph_limit <
              ((testState.context_list ++ ["a"]).length : Int) then
            (testState.context_translated_list ++
                [normalizeNewlines "b"]).tail
           else testState.context_translated_list ++
              [normalizeNewlines "b"])) ∧
      ((testStateOff.stateAfter "a" Response.transportError).context_list =
          testStateOff.context_list ∧
        (testStateOff.stateAfter "a"
              Response.transportError).context_translated_list =
          testStateOff.context_translated_list) :=
  ⟨rfl, rfl, (translate_context_append testState "a" "b").1 rfl,
    (translate_context_append testStateOff "a" "b").2 rfl
      Response.transportError⟩

/-- Claim C3: for an instance with a positive limit satisfying the window
invariant (equal history lengths, at most the limit), every mutating
operation preserves the invariant: save_context with any pair, and
translate with any text and any response outcome. -/
theorem history_invariant_preserved (s : LLaMACpp)
    (hpos : 0 < s.context_paragraph_limit) (hinv : historyInvariant s) :
    (∀ a b : String, historyInvariant (s.save_context a b)) ∧
      ∀ (text : String) (resp : Response),
        historyInvariant (s.stateAfter text resp) := by
  obtain ⟨hlen, hle⟩ := hinv
  have hsave : ∀ a b : String, historyInvariant (s.save_context a b) := by
    intro a b
    rcases hf : s.context_flag with _ | _
    · have hid : s.save_context a b = s := by
        simp [LLaMACpp.save_context, hf]
      rw [hid]
      exact ⟨hlen, hle⟩
    · rw [save_context_true s a b hf]
      split_ifs with hc
      · constructor
        · simp [hlen]
        · simp only [List.length_tail, List.length_append,
            List.length_singleton]
          push_cast
          omega
      · constructor
        · simp [hlen]
        · simp only [List.length_append, List.length_singleton] at hc ⊢
          push_cast at hc ⊢
          omega
  refine ⟨hsave, ?_⟩
  intro text resp
  cases resp with
  | parsed c =>
    cases c with
    | str r =>
      rcases hf : s.context_flag with _ | _
      · have hid : s.stateAfter text (Response.parsed (Content.str r)) =
            s := by
          simp [LLaMACpp.stateAfter, translate_parsed_str, hf]
        rw [hid]
        exact ⟨hlen, hle⟩
      · have hs : s.stateAfter text (Response.parsed (Content.str r)) =
            s.save_context text (normalizeNewlines r) := by
          simp [LLaMACpp.stateAfter, translate_parsed_str, hf]
        rw [hs]
        exact hsave _ _
    | nonStr => exact ⟨hlen, hle⟩
  | transportError => exact ⟨hlen, hle⟩
  | httpStatusError => exact ⟨hlen, hle⟩
  | jsonDecodeError => exact ⟨hlen, hle⟩
  | missingContentPath => exact ⟨hlen, hle⟩

/-- Witness for claim C3 at testState. -/
theorem history_invariant_preserved_witness :
    0 < testState.context_paragraph_limit ∧ historyInvariant testState ∧
      ((∀ a b : String, historyInvariant (testState.save_context a b)) ∧
        ∀ (text : String) (resp : Response),
          historyInvariant (testState.stateAfter text resp)) :=
  ⟨by decide, by decide,
    history_invariant_preserved testState (by decide) (by decide)⟩

/-- General FIFO lemma: with context on and limit L, a run of successful
calls leaves as source history the suffix of (initial history ++ new
texts) that fits the limit. -/
theorem runCalls_context_list (L : Nat) (ps : List (String × String)) :
    ∀ s : LLaMACpp, s.context_flag = true →
      s.context_paragraph_limit = (L : Int) →
      s.context_list.length ≤ L →
      (runCalls s ps).context_list =
        (s.context_list ++ ps.map Prod.fst).drop
          (s.context_list.length + ps.length - L) := by
  induction ps with
  | nil =>
    intro s hf hl hlen
    simp [runCalls, Nat.sub_eq_zero_of_le hlen]
  | cons p ps ih =>
    intro s hf hl hlen
    have hstep : runCalls s (p :: ps) = runCalls (translateStep s p) ps :=
      rfl
    rw [hstep, translateStep_eq, hf]
    simp only [if_true]
    rw [save_context_true s p.1 (normalizeNewlines p.2) hf]
    by_cases hc : s.context_paragraph_limit <
        ((s.context_list ++ [p.1]).length : Int)
    · -- eviction case: the history was full, length exactly L
      have hfull : s.context_list.length = L := by
        simp only [List.length_append, List.length_singleton] at hc
        rw [hl] at hc
        push_cast at hc
        omega
      rw [if_pos hc]
      have h1 := ih
        { s with context_list := (s.context_list ++ [p.1]).tail,
                 context_translated_list :=
                   (s.context_translated_list ++
                     [normalizeNewlines p.2]).tail }
        hf hl
        (by
          simp only [List.length_tail, List.length_append,
            List.length_singleton]
          omega)
      rw [h1]
      dsimp only
      simp only [List.map_cons, List.length_cons, List.length_tail,
        List.length_append, List.length_singleton]
      rw [← List.drop_one]
      rw [← List.drop_append_of_le_length (by simp : 1 ≤
        (s.context_list ++ [p.1]).length)]
      rw [List.drop_drop]
      rw [List.append_assoc, List.singleton_append]
      congr 1
      simp only [List.length_append, List.length_cons, List.length_nil,
        List.length_singleton]
      omega
    · -- no eviction: the appended history still fits
      rw [if_neg hc]
      have hfit : s.context_list.length + 1 ≤ L := by
        simp only [List.length_append, List.length_singleton, not_lt] at hc
        rw [hl] at hc
        push_cast at hc
        omega
      have h1 := ih
        { s with context_list := s.context_list ++ [p.1],
                 context_translated_list :=
                   s.context_translated_list ++ [normalizeNewlines p.2] }
        hf hl
        (by
          simp only [List.length_append, List.length_singleton]
          omega)
      rw [h1]
      dsimp only
      simp only [List.map_cons, List.length_cons, List.length_append,
        List.length_singleton]
      rw [List.append_assoc, List.singleton_append]
      congr 1
      simp only [List.length_append, List.length_cons, List.length_nil,
        List.length_singleton]
      omega

/-- Claim C2: after N successful translate calls against an initially
empty window with context on and positive limit L, the source history has
length min N L and is exactly the last min N L source texts supplied, in
order (the suffix of the supplied texts, oldest entries evicted first). -/
theorem context_fifo_bound (L : Nat) (s : LLaMACpp)
    (ps : List (String × String)) (hL : 0 < L)
    (hf : s.context_flag = true)
    (hl : s.context_paragraph_limit = (L : Int))
    (h0 : s.context_list = []) :
    (runCalls s ps).context_list.length = min ps.length L ∧
      (runCalls s ps).context_list =
        (ps.map Prod.fst).drop (ps.length - L) := by
  have h := runCalls_context_list L ps s hf hl (by simp [h0])
  rw [h0] at h
  simp only [List.nil_append, List.length_nil, Nat.zero_add] at h
  refine ⟨?_, h⟩
  rw [h]
  simp only [List.length_drop, List.length_map]
  omega

/-- Witness for claim C2: limit 2, three calls, history ends as the last
two source texts. -/
theorem context_fifo_bound_witness :
    0 < 2 ∧ testState.context_flag = true ∧
      testState.context_paragraph_limit = ((2 : Nat) : Int) ∧
      testState.context_list = [] ∧
      ((runCalls testState [("a", "x"), ("b", "y"), ("c", "z")]).context_list.length =
          min 3 2 ∧
        (runCalls testState
              [("a", "x"), ("b", "y"), ("c", "z")]).context_list =
          ([("a", "x"), ("b", "y"), ("c", "z")].map Prod.fst).drop
            (3 - 2)) :=
  ⟨by decide, rfl, rfl, rfl,
    context_fifo_bound 2 testState [("a", "x"), ("b", "y"), ("c", "z")]
      (by decide) rfl rfl rfl⟩

/-- A finished run of k newlines is emitted as min k 2 newlines. -/
theorem emitRun_eq (k : Nat) : emitRun k = List.replicate (min k 2) '\n' := by
  unfold emitRun
  split_ifs with h
  · have h2 : min k 2 = 2 := by omega
    rw [h2]
    rfl
  · have h2 : min k 2 = k := by omega
    rw [h2]

/-- The scanner passes a newline-free block through unchanged. -/
theorem collapseAux_block (b : List Char) (hb : '\n' ∉ b) (xs : List Char) :
    collapseAux 0 (b ++ xs) = b ++ collapseAux 0 xs := by
  induction b with
  | nil => rfl
  | cons c cs ih =>
    have hc : ¬ c = '\n' := fun h => hb (h ▸ List.mem_cons_self c cs)
    have hcs : '\n' ∉ cs := fun h => hb (List.mem_cons_of_mem c h)
    simp [List.cons_append, collapseAux, hc, ih hcs, emitRun_eq]

/-- The scanner absorbs a newline run into its counter. -/
theorem collapseAux_run (n : Nat) : ∀ (k : Nat) (xs : List Char),
    collapseAux k (List.replicate n '\n' ++ xs) = collapseAux (k + n) xs := by
  induction n with
  | zero => intro k xs; rfl
  | succ m ih =>
    intro k xs
    rw [List.replicate_succ, List.cons_append]
    show collapseAux k ('\n' :: (List.replicate m '\n' ++ xs)) = _
    rw [show collapseAux k ('\n' :: (List.replicate m '\n' ++ xs)) =
      collapseAux (k + 1) (List.replicate m '\n' ++ xs) by
        simp [collapseAux]]
    rw [ih (k + 1) xs]
    congr 1
    omega

/-- When the rest starts outside a newline run, the open run is flushed. -/
theorem collapseAux_flush (n : Nat) (xs : List Char)
    (hx : xs = [] ∨ ∃ c cs, xs = c :: cs ∧ c ≠ '\n') :
    collapseAux n xs = emitRun n ++ collapseAux 0 xs := by
  rcases hx with h | ⟨c, cs, h, hc⟩
  · subst h
    show emitRun n = emitRun n ++ emitRun 0
    rw [emitRun_eq 0]
    simp
  · subst h
    simp only [collapseAux, hc, if_false, emitRun_eq 0]
    simp

/-- Run-structure lemma: on a string assembled from newline-free blocks
separated by newline runs, the scanner maps each run length n to min n 2
and keeps the blocks. -/
theorem collapseAux_runs (chunks : List (List Char × Nat))
    (hb : ∀ p ∈ chunks, '\n' ∉ p.1)
    (hn : ∀ p ∈ chunks.tail, p.1 ≠ []) :
    collapseAux 0 (assembleRuns chunks) =
      assembleRuns (chunks.map fun p => (p.1, min p.2 2)) := by
  induction chunks with
  | nil => rfl
  | cons p rest ih =>
    obtain ⟨b, n⟩ := p
    have hb0 : '\n' ∉ b := hb (b, n) (List.mem_cons_self _ _)
    have hassemble : assembleRuns ((b, n) :: rest) =
        b ++ (List.replicate n '\n' ++ assembleRuns rest) := by
      simp [assembleRuns]
    rw [hassemble, collapseAux_block b hb0, collapseAux_run n 0]
    have hflush : assembleRuns rest = [] ∨
        ∃ c cs, assembleRuns rest = c :: cs ∧ c ≠ '\n' := by
      cases rest with
      | nil => exact Or.inl rfl
      | cons q rest2 =>
        obtain ⟨b2, n2⟩ := q
        have hb2 : '\n' ∉ b2 :=
          hb (b2, n2) (List.mem_cons_of_mem _ (List.mem_cons_self _ _))
        have hne2 : b2 ≠ [] := hn (b2, n2) (List.mem_cons_self _ _)
        cases hb2' : b2 with
        | nil => exact absurd hb2' hne2
        | cons c cs =>
          refine Or.inr ⟨c, cs ++ (List.replicate n2 '\n' ++
            assembleRuns rest2), ?_, ?_⟩
          · simp [assembleRuns, hb2']
          · intro hcnl
            apply hb2
            rw [hb2', hcnl]
            exact List.mem_cons_self _ _
    rw [Nat.zero_add, collapseAux_flush n _ hflush]
    rw [ih (fun q hq => hb q (List.mem_cons_of_mem _ hq))
      (fun q hq => hn q (List.mem_of_mem_tail hq))]
    rw [emitRun_eq]
    simp [assembleRuns, List.append_assoc]

/-- Claim C6: on any reply decomposed into newline-free blocks separated
by maximal newline runs (every block after the first is non-empty, so runs
are maximal), the cleanup replaces each run of three or more newlines with
exactly two, leaves runs of one or two untouched (each run length n maps
to min n 2), and passes the blocks through with no other transformation. -/
theorem newline_run_normalization (chunks : List (List Char × Nat))
    (hb : ∀ p ∈ chunks, '\n' ∉ p.1)
    (hn : ∀ p ∈ chunks.tail, p.1 ≠ []) :
    normalizeNewlines (String.mk (assembleRuns chunks)) =
      String.mk (assembleRuns (chunks.map fun p => (p.1, min p.2 2))) := by
  unfold normalizeNewlines
  exact congrArg String.mk (collapseAux_runs chunks hb hn)

/-- Witness for claim C6 at the decomposition of "A\n\n\n\nB": the run of
four newlines collapses to two, giving "A\n\nB". -/
theorem newline_run_normalization_witness :
    (∀ p ∈ ([(['A'], 4), (['B'], 0)] : List (List Char × Nat)),
        '\n' ∉ p.1) ∧
      (∀ p ∈ ([(['A'], 4), (['B'], 0)] : List (List Char × Nat)).tail,
        p.1 ≠ []) ∧
      normalizeNewlines
          (String.mk (assembleRuns [(['A'], 4), (['B'], 0)])) =
        String.mk (assembleRuns
          (([(['A'], 4), (['B'], 0)] : List (List Char × Nat)).map
            fun p => (p.1, min p.2 2))) :=
  ⟨by decide, by decide,
    newline_run_normalization [(['A'], 4), (['B'], 0)] (by decide)
      (by decide)⟩

/-- Counterexample to claim C5 as stated: with a parseable response whose
content value is not a string, translate propagates a TypeError instead of
absorbing the failure. -/
theorem translate_raise_counterexample :
    testState.translate "Hello" (Response.parsed Content.nonStr) =
      Except.error PyError.typeError := rfl

/-- Claim C5 (amended): translate absorbs every failure of the HTTP
exchange itself (transport failure, error status, undecodable JSON,
missing content path) and raises nothing whenever the extracted content is
a string; the one exception that escapes to the caller is the TypeError of
the normalization step when a parseable response carries a non-string
content value. -/
theorem translate_no_raise_unless_nonstring (s : LLaMACpp) (text : String)
    (resp : Response) (h : resp ≠ Response.parsed Content.nonStr) :
    ∃ out, s.translate text resp = Except.ok out := by
  cases resp with
  | parsed c =>
    cases c with
    | str r => exact ⟨_, rfl⟩
    | nonStr => exact absurd rfl h
  | transportError => exact ⟨_, rfl⟩
  | httpStatusError => exact ⟨_, rfl⟩
  | jsonDecodeError => exact ⟨_, rfl⟩
  | missingContentPath => exact ⟨_, rfl⟩

/-- Witness for the amended claim C5 at a transport failure. -/
theorem translate_no_raise_unless_nonstring_witness :
    Response.transportError ≠ Response.parsed Content.nonStr ∧
      ∃ out, testState.translate "Bonjour"
          Response.transportError = Except.ok out :=
  ⟨by decide,
    translate_no_raise_unless_nonstring testState "Bonjour"
      Response.transportError (by decide)⟩

end BookMaker
